import Mathlib

/-!
Verification of the crowd-sourced traffic-incident engine of the
traffic-demo repository (traffic_service).

The embedding below follows
`src/traffic_service/app/api/v1/services/traffic_incident_service.py`
(service layer), `src/traffic_service/app/api/v1/models/` (data model),
`src/traffic_service/app/api/v1/schemas/traffic_schemas.py` (request
validation), `src/traffic_service/app/api/v1/routes/traffic_incidents.py`
(route handlers) and `src/traffic_service/app/kafka/producer.py`
(event notifier).

Modelling conventions:
* SQL rows are Lean structures; the database session is an explicit
  `DB` state threaded through the operations.
* `datetime` timestamps are modelled by a logical clock `now : ℕ` that
  strictly increases on every mutating operation, so `datetime.utcnow()`
  at two different mutations yields two different instants.
* Float coordinates are rationals; the haversine computation, which the
  source performs with `math.sin` etc., is idealised over the reals.
* SQLAlchemy auto-increment primary keys for votes are modelled with an
  explicit `next_vote_id` counter.
-/

namespace TrafficDemo

/-! ### Enums — `app/api/v1/enums.py` -/

/-- `IncidentType` from `enums.py`. -/
inductive IncidentType
  | accident
  | construction
  | closure
  | congestion
  | weather
  | hazard
  | other
  deriving DecidableEq, Repr

/-- `IncidentSeverity` from `enums.py`. -/
inductive IncidentSeverity
  | low
  | medium
  | high
  | critical
  deriving DecidableEq, Repr

/-- `IncidentStatus` from `enums.py`. -/
inductive IncidentStatus
  | active
  | resolved
  | verified
  | disputed
  deriving DecidableEq, Repr

/-! ### Rows — `app/api/v1/models/traffic_incident.py` and `incident_vote.py` -/

/-- A row of the `traffic_incidents` table. -/
structure Incident where
  id : String
  type : IncidentType
  severity : IncidentSeverity
  status : IncidentStatus
  latitude : ℚ
  longitude : ℚ
  description : String
  address : Option String
  affected_lanes : Option String
  estimated_duration : Option String
  reported_by : Option String
  created_at : ℕ
  updated_at : ℕ
  votes_confirm : ℕ
  votes_dispute : ℕ
  deriving DecidableEq, Repr

/-- A row of the `incident_votes` table.  `vote_type` is a raw string at
the model/service layer (the `'confirm' or 'dispute'` convention is only
enforced by the request schema, see `VoteRequest`). -/
structure Vote where
  id : ℕ
  incident_id : String
  user_id : Option String
  vote_type : String
  created_at : ℕ
  deriving DecidableEq, Repr

/-- The persistent state seen by one service instance: both tables, the
auto-increment counter for vote primary keys, and the logical clock. -/
structure DB where
  incidents : List Incident
  votes : List Vote
  next_vote_id : ℕ
  now : ℕ
  deriving Repr

/-! ### Request schemas — `app/api/v1/schemas/traffic_schemas.py` -/

/-- `Coordinates` from `traffic_schemas.py` (validated: lat ∈ [-90,90],
lng ∈ [-180,180]). -/
structure Coordinates where
  lat : ℚ
  lng : ℚ
  deriving DecidableEq, Repr

/-- `TrafficIncidentCreate` from `traffic_schemas.py`. -/
structure TrafficIncidentCreate where
  type : IncidentType
  severity : IncidentSeverity
  location : Coordinates
  description : String
  address : Option String
  affected_lanes : Option String
  estimated_duration : Option String
  reported_by : Option String
  deriving DecidableEq, Repr

/-! ### Service operations — `traffic_incident_service.py` -/

/-- `TrafficIncidentService.create_incident`: builds the row with
`status` defaulting to `active`, `votes_confirm = 1` (the reporter's
implicit confirmation), `votes_dispute = 0` (column default), both
timestamps set by the column defaults, and commits it.  The generated id
(`uuid` hex plus timestamp) is passed in as `newId`. -/
def create_incident (db : DB) (newId : String) (d : TrafficIncidentCreate) :
    DB × Incident :=
  let inc : Incident :=
    { id := newId
      type := d.type
      severity := d.severity
      status := IncidentStatus.active
      latitude := d.location.lat
      longitude := d.location.lng
      description := d.description
      address := d.address
      affected_lanes := d.affected_lanes
      estimated_duration := d.estimated_duration
      reported_by := d.reported_by
      created_at := db.now
      updated_at := db.now
      votes_confirm := 1
      votes_dispute := 0 }
  ({ db with incidents := db.incidents ++ [inc], now := db.now + 1 }, inc)

/-- `TrafficIncidentService.get_incident`: `filter(id == incident_id).first()`. -/
def get_incident (db : DB) (incident_id : String) : Option Incident :=
  (db.incidents.filter (fun i => i.id == incident_id)).head?

/-- The `between` pair of conditions of the bounding-box pre-filter in
`get_incidents_by_location`. -/
def inBoundingBox (latitude longitude degree_offset : ℚ) (i : Incident) : Bool :=
  decide (latitude - degree_offset ≤ i.latitude) &&
  decide (i.latitude ≤ latitude + degree_offset) &&
  decide (longitude - degree_offset ≤ i.longitude) &&
  decide (i.longitude ≤ longitude + degree_offset)

/-- Python truthiness of the optional `status_filter` argument:
`if status_filter:` is taken when the list is present and non-empty. -/
def statusTruthy : Option (List IncidentStatus) → Bool
  | none => false
  | some l => !l.isEmpty

/-- The status stage of `get_incidents_by_location`: an explicit truthy
filter is applied verbatim, otherwise the `active`-only default. -/
def applyStatusStage (status_filter : Option (List IncidentStatus))
    (l : List Incident) : List Incident :=
  if statusTruthy status_filter then
    l.filter (fun i => (status_filter.getD []).contains i.status)
  else
    l.filter (fun i => i.status == IncidentStatus.active)

/-- Insert one incident into a list already sorted by `created_at`
descending, keeping it sorted (model of the SQL `ORDER BY created_at DESC`). -/
def insertByCreatedDesc (i : Incident) : List Incident → List Incident
  | [] => [i]
  | j :: rest =>
    if i.created_at ≤ j.created_at then j :: insertByCreatedDesc i rest
    else i :: j :: rest

/-- Sort by `created_at` descending (`.order_by(created_at.desc())`). -/
def sortByCreatedDesc (l : List Incident) : List Incident :=
  l.foldr insertByCreatedDesc []

/-- The candidate stage of `get_incidents_by_location`: bounding-box
pre-filter with `degree_offset = radius_km / 111.0`, the status stage,
`ORDER BY created_at DESC`, and `.limit(limit)`.  Everything before the
exact-distance confirmation. -/
def candidate_incidents (db : DB) (latitude longitude radius_km : ℚ)
    (status_filter : Option (List IncidentStatus)) (limit : ℕ) : List Incident :=
  let degree_offset := radius_km / 111
  let boxed := db.incidents.filter (inBoundingBox latitude longitude degree_offset)
  let statused := applyStatusStage status_filter boxed
  (sortByCreatedDesc statused).take limit

/-! ### Distance — `TrafficIncidentService._calculate_distance` -/

/-- `math.radians`. -/
noncomputable def radians (x : ℝ) : ℝ := x * Real.pi / 180

/-- `math.atan2 y x`. -/
noncomputable def atan2 (y x : ℝ) : ℝ :=
  if 0 < x then Real.arctan (y / x)
  else if x < 0 ∧ 0 ≤ y then Real.arctan (y / x) + Real.pi
  else if x < 0 ∧ y < 0 then Real.arctan (y / x) - Real.pi
  else if 0 < y then Real.pi / 2
  else if y < 0 then -(Real.pi / 2)
  else 0

/-- `TrafficIncidentService._calculate_distance`: haversine great-circle
distance with Earth radius 6371 km, exactly as written in the source. -/
noncomputable def calculate_distance (lat1 lon1 lat2 lon2 : ℝ) : ℝ :=
  let dlat := radians (lat2 - lat1)
  let dlon := radians (lon2 - lon1)
  let a := Real.sin (dlat / 2) * Real.sin (dlat / 2) +
    Real.cos (radians lat1) * Real.cos (radians lat2) *
      (Real.sin (dlon / 2) * Real.sin (dlon / 2))
  let c := 2 * atan2 (Real.sqrt a) (Real.sqrt (1 - a))
  6371 * c

/-- Distance from a rational query center to an incident's location. -/
noncomputable def distTo (latitude longitude : ℚ) (i : Incident) : ℝ :=
  calculate_distance (latitude : ℝ) (longitude : ℝ) (i.latitude : ℝ) (i.longitude : ℝ)

/-- `TrafficIncidentService.get_incidents_by_location`: the candidate
stage followed by the exact-distance confirmation `distance <= radius_km`. -/
noncomputable def get_incidents_by_location (db : DB) (latitude longitude radius_km : ℚ)
    (status_filter : Option (List IncidentStatus)) (limit : ℕ) : List Incident :=
  (candidate_incidents db latitude longitude radius_km status_filter limit).filter
    (fun i => decide (distTo latitude longitude i ≤ (radius_km : ℝ)))

/-- `TrafficIncidentService.get_all_incidents`: an explicit truthy status
filter is applied verbatim; otherwise no status restriction at all (the
default-to-active branch is commented out in the source).  Then
`ORDER BY created_at DESC`, `.offset(offset)`, `.limit(limit)`. -/
def get_all_incidents (db : DB) (status_filter : Option (List IncidentStatus))
    (limit offset : ℕ) : List Incident :=
  let base :=
    if statusTruthy status_filter then
      db.incidents.filter (fun i => (status_filter.getD []).contains i.status)
    else
      db.incidents
  ((sortByCreatedDesc base).drop offset).take limit

/-! ### Voting — `vote_on_incident` and `_update_incident_vote_counts` -/

/-- The service raises `HTTPException(404)` when the incident is missing;
this is the only service-level failure of the voting path. -/
inductive VoteError
  | notFound
  deriving DecidableEq, Repr

/-- The dict returned by `vote_on_incident`. -/
structure VoteResult where
  incident_id : String
  vote_type : String
  votes_confirm : ℕ
  votes_dispute : ℕ
  deriving DecidableEq, Repr

/-- One `count(IncidentVote.id)` query of `_update_incident_vote_counts`:
number of vote rows for the incident with the given `vote_type`. -/
def count_votes (db : DB) (incident_id vote_type : String) : ℕ :=
  (db.votes.filter
    (fun v => v.incident_id == incident_id && v.vote_type == vote_type)).length

/-- `TrafficIncidentService._update_incident_vote_counts`: recompute both
tallies by count queries and write them onto the incident row.  The
sessions are created with `autoflush=False`
(`app/api/database.py`, `sessionmaker(autocommit=False, autoflush=False, …)`),
so the count queries do NOT see a vote write still pending in the
session: they observe the vote table as the database holds it, passed
here as the separate counting state `dbc`, while the tallies are written
onto the session state `db`. -/
def update_incident_vote_counts (dbc db : DB) (incident_id : String) : DB :=
  let confirm_count := count_votes dbc incident_id "confirm"
  let dispute_count := count_votes dbc incident_id "dispute"
  { db with
      incidents := db.incidents.map (fun i =>
        if i.id == incident_id then
          { i with votes_confirm := confirm_count, votes_dispute := dispute_count }
        else i) }

/-- The `existing_vote` lookup of `vote_on_incident`:
`filter(incident_id == …, user_id == …).first()`. -/
def find_existing_vote (db : DB) (incident_id uid : String) : Option Vote :=
  (db.votes.filter
    (fun v => v.incident_id == incident_id && v.user_id == some uid)).head?

/-- The write step of `vote_on_incident`: an identified voter's existing
vote is overwritten in place (`vote_type` and `created_at`), otherwise a
new row is inserted; an anonymous vote always inserts a new row. -/
def write_vote (db : DB) (incident_id vote_type : String)
    (user_id : Option String) : DB :=
  match user_id with
  | some uid =>
    match find_existing_vote db incident_id uid with
    | some existing =>
      { db with
          votes := db.votes.map (fun v =>
            if v.id == existing.id then
              { v with vote_type := vote_type, created_at := db.now }
            else v) }
    | none =>
      { db with
          votes := db.votes ++
            [{ id := db.next_vote_id
               incident_id := incident_id
               user_id := some uid
               vote_type := vote_type
               created_at := db.now }]
          next_vote_id := db.next_vote_id + 1 }
  | none =>
    { db with
        votes := db.votes ++
          [{ id := db.next_vote_id
             incident_id := incident_id
             user_id := none
             vote_type := vote_type
             created_at := db.now }]
        next_vote_id := db.next_vote_id + 1 }

/-- `TrafficIncidentService.vote_on_incident`: 404 when the incident is
missing; otherwise the `write_vote` step, then the tally recount, then
the commit (which flushes the pending vote write together with the
tallies) advances the clock.  Because the session is `autoflush=False`,
the recount's queries run against the pre-write vote table `db`, not
against the state `db1` that already carries the pending write — the
stored tallies therefore exclude the vote being cast. -/
def vote_on_incident (db : DB) (incident_id vote_type : String)
    (user_id : Option String) : Except VoteError (DB × VoteResult) :=
  match get_incident db incident_id with
  | none => Except.error VoteError.notFound
  | some _ =>
    let db1 := write_vote db incident_id vote_type user_id
    let db2 := update_incident_vote_counts db db1 incident_id
    let db3 := { db2 with now := db2.now + 1 }
    match get_incident db3 incident_id with
    | some inc =>
      Except.ok (db3,
        { incident_id := incident_id
          vote_type := vote_type
          votes_confirm := inc.votes_confirm
          votes_dispute := inc.votes_dispute })
    | none =>
      Except.ok (db3,
        { incident_id := incident_id
          vote_type := vote_type
          votes_confirm := 0
          votes_dispute := 0 })

/-- `TrafficIncidentService.update_incident_status`: `None` when the
incident is missing; otherwise set `status`, refresh `updated_at`, commit. -/
def update_incident_status (db : DB) (incident_id : String)
    (new_status : IncidentStatus) (updated_by : Option String) :
    Option (DB × Incident) :=
  match get_incident db incident_id with
  | none => none
  | some _ =>
    let db1 :=
      { db with
          incidents := db.incidents.map (fun i =>
            if i.id == incident_id then
              { i with status := new_status, updated_at := db.now }
            else i)
          now := db.now + 1 }
    match get_incident db1 incident_id with
    | some inc => some (db1, inc)
    | none => none

/-! ### Route corridor — `get_incidents_along_route` -/

/-- One assignment `unique_incidents[incident.id] = incident` into a
Python dict: an existing key keeps its position and takes the new value,
a new key is appended. -/
def dict_insert (d : List (String × Incident)) (k : String) (v : Incident) :
    List (String × Incident) :=
  if d.any (fun p => p.fst == k) then
    d.map (fun p => if p.fst == k then (k, v) else p)
  else d ++ [(k, v)]

/-- The duplicate-removal step of `get_incidents_along_route`:
`unique_incidents` dict keyed by incident id, then `list(values())`. -/
def dedup_by_id (l : List Incident) : List Incident :=
  (l.foldl (fun d i => dict_insert d i.id i) []).map Prod.snd

/-- `TrafficIncidentService.get_incidents_along_route`: one
`get_incidents_by_location` per waypoint with radius `buffer_km` and the
defaults `status_filter = None`, `limit = 100`; results concatenated and
de-duplicated by id. -/
noncomputable def get_incidents_along_route (db : DB)
    (route_coordinates : List Coordinates) (buffer_km : ℚ) : List Incident :=
  let incidents := route_coordinates.foldl
    (fun acc coord =>
      acc ++ get_incidents_by_location db coord.lat coord.lng buffer_km none 100)
    []
  dedup_by_id incidents

/-! ### Event notifier — `app/kafka/producer.py` -/

/-- Outcome of one broker interaction inside `send_message`: delivery
metadata, a `KafkaError`, or any other exception. -/
inductive SendOutcome
  | delivered (partition : ℕ) (offs : ℕ)
  | kafkaError (msg : String)
  | otherError (msg : String)
  deriving DecidableEq, Repr

/-- The `producer.send(...).get(timeout=10)` step: returns record
metadata or raises. -/
def sendAttempt : SendOutcome → Except String (ℕ × ℕ)
  | SendOutcome.delivered p o => Except.ok (p, o)
  | SendOutcome.kafkaError m => Except.error m
  | SendOutcome.otherError m => Except.error m

/-- `KafkaProducerService.send_message`: `False` when the producer was
never initialised; otherwise the send attempt with both `except` arms
catching the exception, logging, and returning `False`.  The function is
total — no failure escapes it. -/
def send_message (producer_initialized : Bool) (outcome : SendOutcome) : Bool :=
  if producer_initialized = false then false
  else
    match sendAttempt outcome with
    | Except.ok _ => true
    | Except.error _ => false

/-- `KafkaProducerService.send_traffic_report`: delegates to
`send_message` on topic `traffic-reports`. -/
def send_traffic_report (producer_initialized : Bool) (outcome : SendOutcome) : Bool :=
  send_message producer_initialized outcome

/-- A message handed to the event notifier. -/
structure KafkaMessage where
  topic : String
  key : Option String
  deriving DecidableEq, Repr

/-- The report operation as exposed by the route handler
`report_incident` in `routes/traffic_incidents.py`: it calls
`create_incident` and returns; the handler contains no call into
`app/kafka/producer.py` (nothing in `traffic_service` imports that
module), so the list of event-notifier publications performed by a
report is empty. -/
def report_incident (db : DB) (newId : String) (d : TrafficIncidentCreate) :
    (DB × Incident) × List KafkaMessage :=
  (create_incident db newId d, [])

/-- `VoteRequest` from `traffic_schemas.py`: `vote_type` must match the
pattern `^(confirm|dispute)$`; this is the request-level validation that
guards `vote_on_incident`. -/
def voteRequestValid (vote_type : String) : Bool :=
  vote_type == "confirm" || vote_type == "dispute"

/-- The vote route `vote_on_incident` in `routes/traffic_incidents.py`
as reached through FastAPI: the `VoteRequest` body is validated first
(a pattern mismatch is rejected with a validation error before the
handler runs, leaving the store untouched), then the service is called. -/
def vote_route (db : DB) (incident_id vote_type : String)
    (user_id : Option String) : DB × Except String VoteResult :=
  if voteRequestValid vote_type then
    match vote_on_incident db incident_id vote_type user_id with
    | Except.ok (db1, r) => (db1, Except.ok r)
    | Except.error VoteError.notFound => (db, Except.error "Incident not found")
  else
    (db, Except.error "validation error: vote_type")

/-! ### List-level lemmas about the query pipeline -/

theorem mem_insertByCreatedDesc (a i : Incident) (l : List Incident) :
    a ∈ insertByCreatedDesc i l ↔ a = i ∨ a ∈ l := by
  induction l with
  | nil => simp [insertByCreatedDesc]
  | cons j rest ih =>
    by_cases h : i.created_at ≤ j.created_at
    · simp only [insertByCreatedDesc, if_pos h, List.mem_cons, ih]
      tauto
    · simp only [insertByCreatedDesc, if_neg h, List.mem_cons]

theorem mem_sortByCreatedDesc (a : Incident) (l : List Incident) :
    a ∈ sortByCreatedDesc l ↔ a ∈ l := by
  induction l with
  | nil => simp [sortByCreatedDesc]
  | cons j rest ih =>
    simp only [sortByCreatedDesc, List.foldr_cons] at ih ⊢
    rw [mem_insertByCreatedDesc, List.mem_cons, ih]

theorem length_insertByCreatedDesc (i : Incident) (l : List Incident) :
    (insertByCreatedDesc i l).length = l.length + 1 := by
  induction l with
  | nil => simp [insertByCreatedDesc]
  | cons j rest ih =>
    by_cases h : i.created_at ≤ j.created_at <;>
      simp [insertByCreatedDesc, h, ih]

theorem length_sortByCreatedDesc (l : List Incident) :
    (sortByCreatedDesc l).length = l.length := by
  induction l with
  | nil => rfl
  | cons j rest ih =>
    simp only [sortByCreatedDesc, List.foldr_cons] at ih ⊢
    rw [length_insertByCreatedDesc, ih, List.length_cons]

theorem mem_applyStatusStage_none (l : List Incident) (i : Incident) :
    i ∈ applyStatusStage none l ↔ i ∈ l ∧ i.status = IncidentStatus.active := by
  simp [applyStatusStage, statusTruthy, List.mem_filter]

theorem mem_applyStatusStage_nil (l : List Incident) (i : Incident) :
    i ∈ applyStatusStage (some []) l ↔ i ∈ l ∧ i.status = IncidentStatus.active := by
  simp [applyStatusStage, statusTruthy, List.mem_filter]

theorem mem_applyStatusStage_cons (l : List Incident) (i : Incident)
    (s : IncidentStatus) (rest : List IncidentStatus) :
    i ∈ applyStatusStage (some (s :: rest)) l ↔ i ∈ l ∧ i.status ∈ s :: rest := by
  simp [applyStatusStage, statusTruthy, List.mem_filter]

theorem applyStatusStage_subset (sf : Option (List IncidentStatus))
    (l : List Incident) (i : Incident) :
    i ∈ applyStatusStage sf l → i ∈ l := by
  intro h
  unfold applyStatusStage at h
  by_cases hb : statusTruthy sf = true
  · rw [if_pos hb] at h
    exact (List.mem_filter.mp h).1
  · rw [if_neg hb] at h
    exact (List.mem_filter.mp h).1

theorem mem_candidate_incidents (db : DB) (lat lng r : ℚ)
    (sf : Option (List IncidentStatus)) (lim : ℕ) (i : Incident) :
    i ∈ candidate_incidents db lat lng r sf lim →
      i ∈ db.incidents ∧ inBoundingBox lat lng (r / 111) i = true := by
  intro h
  unfold candidate_incidents at h
  have h1 := List.take_subset lim _ h
  rw [mem_sortByCreatedDesc] at h1
  have h2 := applyStatusStage_subset _ _ _ h1
  exact ⟨(List.mem_filter.mp h2).1, (List.mem_filter.mp h2).2⟩

theorem mem_get_incidents_by_location (db : DB) (lat lng r : ℚ)
    (sf : Option (List IncidentStatus)) (lim : ℕ) (i : Incident) :
    i ∈ get_incidents_by_location db lat lng r sf lim ↔
      i ∈ candidate_incidents db lat lng r sf lim ∧
        distTo lat lng i ≤ (r : ℝ) := by
  unfold get_incidents_by_location
  rw [List.mem_filter, decide_eq_true_eq]

theorem get_incidents_by_location_subset (db : DB) (lat lng r : ℚ)
    (sf : Option (List IncidentStatus)) (lim : ℕ) (i : Incident) :
    i ∈ get_incidents_by_location db lat lng r sf lim → i ∈ db.incidents := by
  intro h
  exact (mem_candidate_incidents db lat lng r sf lim i
    ((mem_get_incidents_by_location db lat lng r sf lim i).mp h).1).1

/-! ### The distance of a point to itself -/

theorem calculate_distance_self (lat lon : ℝ) :
    calculate_distance lat lon lat lon = 0 := by
  unfold calculate_distance radians atan2
  norm_num [Real.sqrt_one, Real.arctan_zero]

theorem distTo_self (lat lng : ℚ) (i : Incident)
    (h1 : i.latitude = lat) (h2 : i.longitude = lng) :
    distTo lat lng i = 0 := by
  unfold distTo
  rw [h1, h2, calculate_distance_self]

theorem mem_candidate_statusStage (db : DB) (lat lng r : ℚ)
    (sf : Option (List IncidentStatus)) (lim : ℕ) (i : Incident) :
    i ∈ candidate_incidents db lat lng r sf lim →
      i ∈ applyStatusStage sf
        (db.incidents.filter (inBoundingBox lat lng (r / 111))) := by
  intro h
  unfold candidate_incidents at h
  have h1 := List.take_subset lim _ h
  rwa [mem_sortByCreatedDesc] at h1

/-! ### Concrete fixtures used by counterexamples and witnesses -/

/-- A well-formed creation request at the origin. -/
def sampleCreate : TrafficIncidentCreate :=
  { type := IncidentType.accident
    severity := IncidentSeverity.high
    location := { lat := 0, lng := 0 }
    description := "two cars blocking the left lane"
    address := none
    affected_lanes := none
    estimated_duration := none
    reported_by := none }

/-- An active incident at the origin, created at logical time 1. -/
def cIncidentA : Incident :=
  { id := "a"
    type := IncidentType.accident
    severity := IncidentSeverity.high
    status := IncidentStatus.active
    latitude := 0
    longitude := 0
    description := "newer incident"
    address := none
    affected_lanes := none
    estimated_duration := none
    reported_by := none
    created_at := 1
    updated_at := 1
    votes_confirm := 1
    votes_dispute := 0 }

/-- An active incident at the origin, created at logical time 0 (older). -/
def cIncidentB : Incident :=
  { id := "b"
    type := IncidentType.hazard
    severity := IncidentSeverity.low
    status := IncidentStatus.active
    latitude := 0
    longitude := 0
    description := "older incident"
    address := none
    affected_lanes := none
    estimated_duration := none
    reported_by := none
    created_at := 0
    updated_at := 0
    votes_confirm := 1
    votes_dispute := 0 }

/-- A store holding the two incidents above and no votes. -/
def cDB : DB :=
  { incidents := [cIncidentA, cIncidentB]
    votes := []
    next_vote_id := 0
    now := 2 }

/-- Evaluation of the candidate stage on the concrete store with
`limit = 1`: only the newest incident survives the truncation. -/
theorem cDB_candidates_limit_one :
    candidate_incidents cDB 0 0 5 none 1 = [cIncidentA] := by
  norm_num [candidate_incidents, cDB, cIncidentA, cIncidentB, inBoundingBox,
    applyStatusStage, statusTruthy, sortByCreatedDesc, insertByCreatedDesc,
    List.filter_cons, List.filter_nil]

/-- Evaluation of the candidate stage on the concrete store with an
explicit empty status filter and `limit = 2`: Python truthiness treats
the empty list like an absent filter, so both active incidents survive. -/
theorem cDB_candidates_empty_filter :
    candidate_incidents cDB 0 0 5 (some []) 2 = [cIncidentA, cIncidentB] := by
  norm_num [candidate_incidents, cDB, cIncidentA, cIncidentB, inBoundingBox,
    applyStatusStage, statusTruthy, sortByCreatedDesc, insertByCreatedDesc,
    List.filter_cons, List.filter_nil]

/-! ### Claim C1 -/

/-- Claim C1 as stated is false: with two active incidents located exactly
at the query center (haversine distance 0 ≤ radius 5) and `limit = 1`,
the candidate stage truncates after the newest incident, so the older
incident `cIncidentB` is excluded from the proximity result even though
its true distance is ≤ the radius. -/
theorem C1_counterexample :
    cIncidentB.status = IncidentStatus.active ∧
    distTo 0 0 cIncidentB ≤ ((5 : ℚ) : ℝ) ∧
    cIncidentB ∉ get_incidents_by_location cDB 0 0 5 none 1 := by
  refine ⟨rfl, ?_, ?_⟩
  · rw [distTo_self 0 0 cIncidentB rfl rfl]
    norm_num
  · intro hmem
    rw [mem_get_incidents_by_location, cDB_candidates_limit_one] at hmem
    have hAB : cIncidentB = cIncidentA := by simpa using hmem.1
    have : cIncidentB.id = cIncidentA.id := by rw [hAB]
    simp [cIncidentA, cIncidentB] at this

/-- Claim C1 (amended): an incident appears in the proximity result iff
it survives the candidate stage (bounding box with degree offset
`r / 111`, status stage, ordering, limit) and its haversine distance to
the center is ≤ r; every candidate comes from the store and lies in the
bounding box.  The candidate stage itself can exclude incidents whose
true distance is ≤ r (see `C1_counterexample`). -/
theorem C1_location_membership (db : DB) (lat lng r : ℚ)
    (sf : Option (List IncidentStatus)) (lim : ℕ) (i : Incident) :
    (i ∈ get_incidents_by_location db lat lng r sf lim ↔
      i ∈ candidate_incidents db lat lng r sf lim ∧ distTo lat lng i ≤ (r : ℝ)) ∧
    (i ∈ candidate_incidents db lat lng r sf lim →
      i ∈ db.incidents ∧ inBoundingBox lat lng (r / 111) i = true) :=
  ⟨mem_get_incidents_by_location db lat lng r sf lim i,
   mem_candidate_incidents db lat lng r sf lim i⟩

/-- `C1_location_membership` applied at a concrete store: the newest
incident at the center does appear in the proximity result. -/
theorem C1_location_membership_witness :
    cIncidentA ∈ get_incidents_by_location cDB 0 0 5 none 1 := by
  refine ((C1_location_membership cDB 0 0 5 none 1 cIncidentA).1).mpr
    ⟨by rw [cDB_candidates_limit_one]; simp, ?_⟩
  rw [distTo_self 0 0 cIncidentA rfl rfl]
  norm_num

/-! ### Claim C3 -/

/-- Claim C3 as stated is false: a successful report persists the new
incident, yet the list of Event Notifier publications it performs is
empty — the route handler never calls into `app/kafka/producer.py`. -/
theorem C3_counterexample :
    (report_incident cDB "incident_x" sampleCreate).1.2 ∈
      (report_incident cDB "incident_x" sampleCreate).1.1.incidents ∧
    (report_incident cDB "incident_x" sampleCreate).2 = [] := by
  exact ⟨by simp [report_incident, create_incident], rfl⟩

/-- Claim C3 (amended): a successful report persists the new incident and
performs no Event Notifier publication at all; independently, the
producer's send path reports failure by returning `False` — a broker
error, any other exception, or an uninitialised producer never raises to
the caller. -/
theorem C3_report_no_publication (db : DB) (newId : String)
    (d : TrafficIncidentCreate) :
    (report_incident db newId d).1.2 ∈ (report_incident db newId d).1.1.incidents ∧
    (report_incident db newId d).2 = [] ∧
    (∀ m, send_traffic_report true (SendOutcome.kafkaError m) = false) ∧
    (∀ m, send_traffic_report true (SendOutcome.otherError m) = false) ∧
    (∀ oc, send_traffic_report false oc = false) := by
  refine ⟨?_, rfl, fun m => rfl, fun m => rfl, fun oc => rfl⟩
  simp [report_incident, create_incident]

/-! ### Claim C7 -/

/-- Claim C7 as stated is false for an explicitly supplied empty status
list: Python truthiness treats `[]` like an absent filter, so the
active-only default is injected and `cIncidentA` appears, although a
verbatim use of the empty list would return nothing. -/
theorem C7_counterexample :
    cIncidentA ∈ get_incidents_by_location cDB 0 0 5 (some []) 2 ∧
    cIncidentA.status ∉ ([] : List IncidentStatus) := by
  constructor
  · refine (mem_get_incidents_by_location cDB 0 0 5 (some []) 2 cIncidentA).mpr
      ⟨by rw [cDB_candidates_empty_filter]; simp, ?_⟩
    rw [distTo_self 0 0 cIncidentA rfl rfl]
    norm_num
  · simp

/-- Claim C7 (amended): with no status filter the proximity listing keeps
only `active` incidents while the plain listing applies no status
restriction (with a large enough limit it returns every stored incident,
whatever its status); an explicitly supplied non-empty status list is
used verbatim by the status stage of both listings; an explicitly
supplied empty list behaves like an absent filter. -/
theorem C7_status_filter_defaults (db : DB) (lat lng r : ℚ) (lim off : ℕ)
    (i : Incident) (s : IncidentStatus) (rest : List IncidentStatus) :
    (i ∈ get_incidents_by_location db lat lng r none lim →
      i.status = IncidentStatus.active) ∧
    (db.incidents.length ≤ lim →
      (i ∈ get_all_incidents db none lim 0 ↔ i ∈ db.incidents)) ∧
    (i ∈ get_incidents_by_location db lat lng r (some (s :: rest)) lim →
      i.status ∈ s :: rest) ∧
    (i ∈ get_all_incidents db (some (s :: rest)) lim off →
      i ∈ db.incidents ∧ i.status ∈ s :: rest) ∧
    (i ∈ applyStatusStage (some (s :: rest)) db.incidents ↔
      i ∈ db.incidents ∧ i.status ∈ s :: rest) ∧
    (i ∈ applyStatusStage (some []) db.incidents ↔
      i ∈ db.incidents ∧ i.status = IncidentStatus.active) := by
  refine ⟨?_, ?_, ?_, ?_, mem_applyStatusStage_cons _ _ _ _,
    mem_applyStatusStage_nil _ _⟩
  · intro h
    rw [mem_get_incidents_by_location] at h
    have h1 := mem_candidate_statusStage db lat lng r none lim i h.1
    exact ((mem_applyStatusStage_none _ _).mp h1).2
  · intro hlim
    unfold get_all_incidents
    rw [if_neg (by simp [statusTruthy])]
    simp only [List.drop_zero]
    rw [List.take_of_length_le
      (by rw [length_sortByCreatedDesc]; exact hlim), mem_sortByCreatedDesc]
  · intro h
    rw [mem_get_incidents_by_location] at h
    have h1 := mem_candidate_statusStage db lat lng r (some (s :: rest)) lim i h.1
    exact ((mem_applyStatusStage_cons _ _ _ _).mp h1).2
  · intro h
    unfold get_all_incidents at h
    have h1 := List.take_subset lim _ h
    have h2 := List.drop_subset off _ h1
    rw [mem_sortByCreatedDesc] at h2
    rw [if_pos (by simp [statusTruthy])] at h2
    have h3 := List.mem_filter.mp h2
    refine ⟨h3.1, ?_⟩
    simpa using h3.2

/-- `C7_status_filter_defaults` applied at a concrete store: the plain
listing with no filter returns the older incident as well. -/
theorem C7_status_filter_defaults_witness :
    cIncidentB ∈ get_all_incidents cDB none 2 0 := by
  refine ((C7_status_filter_defaults cDB 0 0 5 2 0 cIncidentB
    IncidentStatus.active []).2.1 (by simp [cDB])).mpr (by simp [cDB])

/-! ### Derived state views of the mutating operations -/

/-- The store state after a vote: the committed state on success, the
unchanged state when the service raised 404. -/
def vote_state (db : DB) (incident_id vote_type : String)
    (user_id : Option String) : DB :=
  match vote_on_incident db incident_id vote_type user_id with
  | Except.ok (db1, _) => db1
  | Except.error _ => db

/-- The store state after a status update: the committed state on
success, the unchanged state when the incident was absent. -/
def update_state (db : DB) (incident_id : String) (new_status : IncidentStatus)
    (updated_by : Option String) : DB :=
  match update_incident_status db incident_id new_status updated_by with
  | some (db1, _) => db1
  | none => db

/-- The committed state of a successful vote, written as the explicit
pipeline of its three steps.  The recount's counting state is the
pre-write `db` (`autoflush=False`). -/
def vote_db (db : DB) (incident_id vote_type : String)
    (user_id : Option String) : DB :=
  let db1 := write_vote db incident_id vote_type user_id
  let db2 := update_incident_vote_counts db db1 incident_id
  { db2 with now := db2.now + 1 }

/-! ### Vote-row bookkeeping -/

/-- All vote rows recorded for one incident. -/
def rows_for (db : DB) (incident_id : String) : List Vote :=
  db.votes.filter (fun v => v.incident_id == incident_id)

/-- The vote rows of one identified voter on one incident. -/
def voter_rows (db : DB) (incident_id uid : String) : List Vote :=
  db.votes.filter (fun v => v.incident_id == incident_id && v.user_id == some uid)

/-! ### Small facts about the pipeline steps -/

theorem update_counts_votes (dbc db : DB) (iid : String) :
    (update_incident_vote_counts dbc db iid).votes = db.votes := rfl

theorem update_counts_now (dbc db : DB) (iid : String) :
    (update_incident_vote_counts dbc db iid).now = db.now := rfl

theorem write_vote_incidents (db : DB) (iid vt : String) (uid : Option String) :
    (write_vote db iid vt uid).incidents = db.incidents := by
  cases uid with
  | none => rfl
  | some u => cases h : find_existing_vote db iid u <;> simp [write_vote, h]

theorem write_vote_now (db : DB) (iid vt : String) (uid : Option String) :
    (write_vote db iid vt uid).now = db.now := by
  cases uid with
  | none => rfl
  | some u => cases h : find_existing_vote db iid u <;> simp [write_vote, h]

theorem count_votes_congr (db db' : DB) (h : db.votes = db'.votes)
    (iid vt : String) : count_votes db iid vt = count_votes db' iid vt := by
  unfold count_votes
  rw [h]

theorem filter_map_comm {α : Type} (l : List α) (g : α → α) (p : α → Bool)
    (hp : ∀ a, p (g a) = p a) :
    (l.map g).filter p = (l.filter p).map g := by
  induction l with
  | nil => rfl
  | cons a t ih =>
    simp only [List.map_cons, List.filter_cons, hp a]
    by_cases h : p a = true
    · rw [if_pos h, if_pos h, List.map_cons, ih]
    · rw [if_neg h, if_neg h, ih]

theorem head?_eq_singleton {α : Type} (l : List α) (a : α)
    (hh : l.head? = some a) (hl : l.length ≤ 1) : l = [a] := by
  cases l with
  | nil => simp at hh
  | cons b t =>
    cases t with
    | nil =>
      simp only [List.head?_cons, Option.some_inj] at hh
      rw [hh]
    | cons c u => simp at hl

theorem get_incident_spec (db : DB) (iid : String) (i : Incident)
    (h : get_incident db iid = some i) : i ∈ db.incidents ∧ i.id = iid := by
  unfold get_incident at h
  have hm : i ∈ db.incidents.filter (fun j => j.id == iid) :=
    List.mem_of_mem_head? (by simp [h])
  have h2 := List.mem_filter.mp hm
  exact ⟨h2.1, by simpa using h2.2⟩

theorem filter_id_head_map (l : List Incident) (g : Incident → Incident)
    (iid : String) (hg : ∀ i, (g i).id = i.id) :
    ((l.map g).filter (fun j => j.id == iid)).head? =
      ((l.filter (fun j => j.id == iid)).head?).map g := by
  rw [filter_map_comm l g _ (fun a => by simp [hg a]), List.head?_map]

theorem get_incident_update_counts (dbc db : DB) (iid iid' : String) :
    get_incident (update_incident_vote_counts dbc db iid) iid' =
      (get_incident db iid').map (fun i =>
        if i.id == iid then
          { i with votes_confirm := count_votes dbc iid "confirm"
                   votes_dispute := count_votes dbc iid "dispute" }
        else i) := by
  unfold update_incident_vote_counts get_incident
  exact filter_id_head_map _ _ _
    (fun i => by by_cases h : i.id == iid <;> simp [h])

theorem tallies_after_update_counts (dbc db : DB) (iid : String) (i : Incident)
    (hi : i ∈ (update_incident_vote_counts dbc db iid).incidents)
    (hid : i.id = iid) :
    i.votes_confirm = count_votes dbc iid "confirm" ∧
    i.votes_dispute = count_votes dbc iid "dispute" := by
  unfold update_incident_vote_counts at hi
  simp only [List.mem_map] at hi
  obtain ⟨j, hj, hji⟩ := hi
  by_cases h : j.id = iid
  · rw [if_pos (by simp [h])] at hji
    rw [← hji]
    exact ⟨rfl, rfl⟩
  · rw [if_neg (by simp [h])] at hji
    rw [← hji] at hid
    exact absurd hid h

theorem vote_state_not_found (db : DB) (iid vt : String) (uid : Option String)
    (h : get_incident db iid = none) : vote_state db iid vt uid = db := by
  unfold vote_state vote_on_incident
  rw [h]

theorem vote_state_eq (db : DB) (iid vt : String) (uid : Option String)
    (inc : Incident) (h : get_incident db iid = some inc) :
    vote_state db iid vt uid = vote_db db iid vt uid := by
  unfold vote_state vote_on_incident vote_db
  rw [h]
  simp only []
  cases get_incident
    { update_incident_vote_counts db (write_vote db iid vt uid) iid with
      now :=
        (update_incident_vote_counts db (write_vote db iid vt uid) iid).now + 1 }
    iid <;> rfl

theorem vote_db_votes (db : DB) (iid vt : String) (uid : Option String) :
    (vote_db db iid vt uid).votes = (write_vote db iid vt uid).votes := rfl

theorem vote_db_now (db : DB) (iid vt : String) (uid : Option String) :
    (vote_db db iid vt uid).now = db.now + 1 := by
  show (update_incident_vote_counts db (write_vote db iid vt uid) iid).now + 1
    = db.now + 1
  rw [update_counts_now, write_vote_now]

theorem vote_db_get_incident (db : DB) (iid vt : String) (uid : Option String)
    (iid' : String) :
    get_incident (vote_db db iid vt uid) iid' =
      (get_incident db iid').map (fun i =>
        if i.id == iid then
          { i with
              votes_confirm := count_votes db iid "confirm"
              votes_dispute := count_votes db iid "dispute" }
        else i) := by
  have h1 : get_incident (vote_db db iid vt uid) iid' =
      get_incident
        (update_incident_vote_counts db (write_vote db iid vt uid) iid) iid' := rfl
  rw [h1, get_incident_update_counts]
  have h2 : get_incident (write_vote db iid vt uid) iid' = get_incident db iid' := by
    unfold get_incident
    rw [write_vote_incidents]
  rw [h2]

/-- Stored tallies after a vote: because the recount ran against the
pre-write table (`autoflush=False`), the committed tallies are the
per-type counts of the state BEFORE this vote's write — the vote just
cast is not included. -/
theorem vote_tallies (db : DB) (iid vt : String) (uid : Option String)
    (inc : Incident) (h : get_incident db iid = some inc) :
    ∀ i ∈ (vote_state db iid vt uid).incidents, i.id = iid →
      i.votes_confirm = count_votes db iid "confirm" ∧
      i.votes_dispute = count_votes db iid "dispute" := by
  intro i hi hid
  rw [vote_state_eq db iid vt uid inc h] at hi
  exact tallies_after_update_counts db (write_vote db iid vt uid) iid i hi hid

theorem vote_state_get_incident (db : DB) (iid vt : String) (uid : Option String)
    (inc : Incident) (h : get_incident db iid = some inc) :
    ∃ inc1, get_incident (vote_state db iid vt uid) iid = some inc1 := by
  rw [vote_state_eq db iid vt uid inc h, vote_db_get_incident, h]
  exact ⟨_, rfl⟩

theorem find_existing_vote_eq (db : DB) (iid u : String) :
    find_existing_vote db iid u = (voter_rows db iid u).head? := rfl

theorem voter_rows_congr (db db' : DB) (h : db.votes = db'.votes)
    (iid u : String) : voter_rows db iid u = voter_rows db' iid u := by
  unfold voter_rows
  rw [h]

theorem rows_for_congr (db db' : DB) (h : db.votes = db'.votes)
    (iid : String) : rows_for db iid = rows_for db' iid := by
  unfold rows_for
  rw [h]

theorem write_vote_anon_votes (db : DB) (iid vt : String) :
    (write_vote db iid vt none).votes =
      db.votes ++
        [{ id := db.next_vote_id, incident_id := iid, user_id := none,
           vote_type := vt, created_at := db.now }] := rfl

theorem voter_rows_write_found (db : DB) (iid vt u : String) (e : Vote)
    (hf : find_existing_vote db iid u = some e)
    (hone : (voter_rows db iid u).length ≤ 1) :
    voter_rows (write_vote db iid vt (some u)) iid u =
      [{ e with vote_type := vt, created_at := db.now }] ∧
    (write_vote db iid vt (some u)).votes.length = db.votes.length := by
  have he : voter_rows db iid u = [e] :=
    head?_eq_singleton _ _ (by rw [← find_existing_vote_eq]; exact hf) hone
  have hgmem : e ∈ db.votes := by
    have : e ∈ voter_rows db iid u := by rw [he]; exact List.mem_singleton_self e
    exact (List.mem_filter.mp this).1
  have hw : write_vote db iid vt (some u) =
      { db with votes := db.votes.map (fun v =>
          if v.id == e.id then { v with vote_type := vt, created_at := db.now }
          else v) } := by
    simp only [write_vote, hf]
  rw [hw]
  constructor
  · unfold voter_rows
    rw [filter_map_comm db.votes _ _
      (fun a => by by_cases h : a.id == e.id <;> simp [h])]
    have hrw : db.votes.filter
        (fun v => v.incident_id == iid && v.user_id == some u) =
        voter_rows db iid u := rfl
    rw [hrw, he, List.map_singleton]
    simp
  · exact List.length_map db.votes _

theorem voter_rows_write_new (db : DB) (iid vt u : String)
    (hf : find_existing_vote db iid u = none) :
    voter_rows (write_vote db iid vt (some u)) iid u =
      [{ id := db.next_vote_id, incident_id := iid, user_id := some u,
         vote_type := vt, created_at := db.now }] ∧
    (write_vote db iid vt (some u)).votes.length = db.votes.length + 1 := by
  have he : voter_rows db iid u = [] := by
    rw [find_existing_vote_eq] at hf
    exact List.head?_eq_none_iff.mp hf
  have hw : write_vote db iid vt (some u) =
      { db with
          votes := db.votes ++
            [{ id := db.next_vote_id, incident_id := iid, user_id := some u,
               vote_type := vt, created_at := db.now }]
          next_vote_id := db.next_vote_id + 1 } := by
    simp only [write_vote, hf]
  rw [hw]
  constructor
  · unfold voter_rows
    rw [List.filter_append]
    have hrw : db.votes.filter
        (fun v => v.incident_id == iid && v.user_id == some u) =
        voter_rows db iid u := rfl
    rw [hrw, he]
    simp
  · simp

theorem write_vote_types (db : DB) (iid vt : String) (uid : Option String)
    (P : String → Prop) (hvt : P vt)
    (hall : ∀ v ∈ db.votes, v.incident_id = iid → P v.vote_type) :
    ∀ v ∈ (write_vote db iid vt uid).votes, v.incident_id = iid →
      P v.vote_type := by
  intro v hv hvi
  cases uid with
  | none =>
    rw [write_vote_anon_votes] at hv
    rcases List.mem_append.mp hv with hold | hnew
    · exact hall v hold hvi
    · rw [List.mem_singleton] at hnew
      rw [hnew]
      exact hvt
  | some u =>
    cases hfind : find_existing_vote db iid u with
    | some e =>
      simp only [write_vote, hfind] at hv
      rcases List.mem_map.mp hv with ⟨w, hw, hwv⟩
      by_cases h : w.id = e.id
      · rw [if_pos (by simp [h])] at hwv
        rw [← hwv]
        exact hvt
      · rw [if_neg (by simp [h])] at hwv
        rw [← hwv]
        rw [← hwv] at hvi
        exact hall w hw hvi
    | none =>
      simp only [write_vote, hfind] at hv
      rcases List.mem_append.mp hv with hold | hnew
      · exact hall v hold hvi
      · rw [List.mem_singleton] at hnew
        rw [hnew]
        exact hvt

theorem count_votes_write_anon (db : DB) (iid t : String) :
    count_votes (write_vote db iid t none) iid t = count_votes db iid t + 1 ∧
    (write_vote db iid t none).votes.length = db.votes.length + 1 := by
  constructor
  · unfold count_votes
    rw [write_vote_anon_votes, List.filter_append]
    simp
  · rw [write_vote_anon_votes]
    simp

/-! ### Vote sequences -/

/-- One `castVote` request against a fixed incident. -/
structure VoteOp where
  vote_type : String
  user_id : Option String
  deriving DecidableEq, Repr

/-- Run a sequence of vote requests against one incident; a request on a
missing incident raises 404 and leaves the store unchanged. -/
def apply_votes (db : DB) (incident_id : String) : List VoteOp → DB
  | [] => db
  | op :: rest =>
    apply_votes (vote_state db incident_id op.vote_type op.user_id)
      incident_id rest

/-- Run `n` anonymous votes of one type against one incident. -/
def apply_anon_votes (db : DB) (incident_id vote_type : String) : ℕ → DB
  | 0 => db
  | n + 1 =>
    apply_anon_votes (vote_state db incident_id vote_type none)
      incident_id vote_type n

/-- Primary-key well-formedness of the vote table: ids are distinct and
below the auto-increment counter. -/
def VoteIdsWF (db : DB) : Prop :=
  (db.votes.map Vote.id).Nodup ∧ ∀ v ∈ db.votes, v.id < db.next_vote_id

/-- The empty store. -/
def emptyDB : DB :=
  { incidents := [], votes := [], next_vote_id := 0, now := 0 }

theorem length_filter_split (l : List Vote) (iid : String)
    (h : ∀ v ∈ l, v.incident_id = iid →
      (v.vote_type = "confirm" ∨ v.vote_type = "dispute")) :
    (l.filter (fun v => v.incident_id == iid && v.vote_type == "confirm")).length +
      (l.filter (fun v => v.incident_id == iid && v.vote_type == "dispute")).length =
      (l.filter (fun v => v.incident_id == iid)).length := by
  induction l with
  | nil => rfl
  | cons a t ih =>
    have ht := ih (fun v hv => h v (List.mem_cons_of_mem a hv))
    simp only [List.filter_cons]
    by_cases hi : a.incident_id = iid
    · rcases h a (List.mem_cons_self a t) hi with hc | hd
      · rw [if_pos (by simp [hi, hc]), if_neg (by simp [hc]),
          if_pos (by simp [hi])]
        simp only [List.length_cons]
        omega
      · rw [if_neg (by simp [hd]), if_pos (by simp [hi, hd]),
          if_pos (by simp [hi])]
        simp only [List.length_cons]
        omega
    · rw [if_neg (by simp [hi]), if_neg (by simp [hi]), if_neg (by simp [hi])]
      exact ht

theorem get_incident_create (db : DB) (newId : String)
    (d : TrafficIncidentCreate) :
    ∃ inc, get_incident (create_incident db newId d).1 newId = some inc := by
  rw [← Option.isSome_iff_exists]
  unfold get_incident create_incident
  simp only [List.filter_append]
  rw [List.head?_append]
  cases hb : (db.incidents.filter (fun i => i.id == newId)).head? with
  | some a => simp
  | none => simp

/-! ### Claim C4 -/

/-- Claim C4: a vote request whose `vote_type` matches neither `confirm`
nor `dispute` is rejected by the `VoteRequest` pattern validation before
the service runs: the caller gets a synchronous validation error, the
store is unchanged (no vote row recorded, no tally touched). -/
theorem C4_invalid_vote_type (db : DB) (iid vt : String) (uid : Option String)
    (inc : Incident) (hex : get_incident db iid = some inc)
    (hvt : vt ≠ "confirm" ∧ vt ≠ "dispute") :
    (vote_route db iid vt uid).1 = db ∧
    (vote_route db iid vt uid).2 = Except.error "validation error: vote_type" := by
  have hvalid : voteRequestValid vt = false := by
    unfold voteRequestValid
    simp [hvt.1, hvt.2]
  unfold vote_route
  rw [hvalid]
  exact ⟨rfl, rfl⟩

/-- `C4_invalid_vote_type` applied at a concrete store: a vote of type
`maybe` on the stored incident `a` leaves the store untouched and fails
with the validation error. -/
theorem C4_invalid_vote_type_witness :
    (vote_route cDB "a" "maybe" none).1 = cDB ∧
    (vote_route cDB "a" "maybe" none).2 =
      Except.error "validation error: vote_type" := by
  refine C4_invalid_vote_type cDB "a" "maybe" none cIncidentA rfl ⟨?_, ?_⟩ <;>
    decide

/-! ### Claim C5 -/

/-- Claim C5 as stated is false in its tally assertion: voter `u1` votes
`confirm` then `dispute` on incident `a` of a store with no prior votes.
The row is correctly replaced — exactly one row of that voter remains
and it is typed `dispute` — but because the second vote's recount ran
against the pre-write table (`autoflush=False`), the stored tallies are
`votes_confirm = 1`, `votes_dispute = 0`: the exact opposite of the one
dispute the claim requires the tallies to show. -/
theorem C5_counterexample :
    (voter_rows (vote_state (vote_state cDB "a" "confirm" (some "u1"))
      "a" "dispute" (some "u1")) "a" "u1").length = 1 ∧
    (∀ v ∈ voter_rows (vote_state (vote_state cDB "a" "confirm" (some "u1"))
        "a" "dispute" (some "u1")) "a" "u1",
      v.vote_type = "dispute") ∧
    (∀ i ∈ (vote_state (vote_state cDB "a" "confirm" (some "u1"))
        "a" "dispute" (some "u1")).incidents,
      i.id = "a" → i.votes_confirm = 1 ∧ i.votes_dispute = 0) := by
  refine ⟨rfl, ?_, ?_⟩ <;> decide

/-- Claim C5 (amended): on an existing incident, a second vote by the
same identified voter replaces the first instead of adding to it.  From
any state where the voter has at most one vote row on the incident (the
per-voter uniqueness invariant), after voting `t1` then `t2`: exactly one
row of that voter remains, its `vote_type` is `t2` and its `castAt` is
the strictly later second-vote instant; the second vote adds no row; the
voter's rows hold one vote of type `t2` and (when `t1 ≠ t2`) none of type
`t1`.  The stored tallies, however, are the recount of the table as it
stood BEFORE the second vote's write (`autoflush=False`): they still
reflect the voter's first vote `t1`, not `t2`. -/
theorem C5_revote_replaces (db : DB) (iid t1 t2 u : String) (inc : Incident)
    (hex : get_incident db iid = some inc)
    (hone : (voter_rows db iid u).length ≤ 1) :
    (voter_rows (vote_state (vote_state db iid t1 (some u)) iid t2 (some u)) iid u).length = 1 ∧
    (∀ v ∈ voter_rows (vote_state (vote_state db iid t1 (some u)) iid t2 (some u)) iid u,
      v.vote_type = t2 ∧ v.created_at = db.now + 1) ∧
    (vote_state db iid t1 (some u)).now = db.now + 1 ∧
    (vote_state (vote_state db iid t1 (some u)) iid t2 (some u)).votes.length =
      (vote_state db iid t1 (some u)).votes.length ∧
    (t1 ≠ t2 →
      ((voter_rows (vote_state (vote_state db iid t1 (some u)) iid t2 (some u)) iid u).filter
        (fun v => v.vote_type == t1)).length = 0) ∧
    ((voter_rows (vote_state (vote_state db iid t1 (some u)) iid t2 (some u)) iid u).filter
      (fun v => v.vote_type == t2)).length = 1 ∧
    (∀ i ∈ (vote_state (vote_state db iid t1 (some u)) iid t2 (some u)).incidents,
      i.id = iid →
        i.votes_confirm =
          count_votes (vote_state db iid t1 (some u)) iid "confirm" ∧
        i.votes_dispute =
          count_votes (vote_state db iid t1 (some u)) iid "dispute") := by
  have h1eq : vote_state db iid t1 (some u) = vote_db db iid t1 (some u) :=
    vote_state_eq db iid t1 (some u) inc hex
  -- the single row left by the first vote
  have hrow1 : ∃ w1, voter_rows (vote_state db iid t1 (some u)) iid u = [w1] ∧
      w1.vote_type = t1 := by
    rw [h1eq]
    rw [voter_rows_congr (vote_db db iid t1 (some u)) (write_vote db iid t1 (some u))
      (vote_db_votes db iid t1 (some u)) iid u]
    cases hf : find_existing_vote db iid u with
    | some e =>
      exact ⟨_, (voter_rows_write_found db iid t1 u e hf hone).1, rfl⟩
    | none =>
      exact ⟨_, (voter_rows_write_new db iid t1 u hf).1, rfl⟩
  obtain ⟨w1, hw1, hw1t⟩ := hrow1
  obtain ⟨inc1, hinc1⟩ := vote_state_get_incident db iid t1 (some u) inc hex
  have h2eq : vote_state (vote_state db iid t1 (some u)) iid t2 (some u) =
      vote_db (vote_state db iid t1 (some u)) iid t2 (some u) :=
    vote_state_eq _ iid t2 (some u) inc1 hinc1
  have hf2 : find_existing_vote (vote_state db iid t1 (some u)) iid u = some w1 := by
    rw [find_existing_vote_eq, hw1]
    rfl
  have hfound := voter_rows_write_found (vote_state db iid t1 (some u)) iid t2 u w1 hf2
    (by rw [hw1]; exact Nat.le_refl 1)
  have hrows2 : voter_rows (vote_state (vote_state db iid t1 (some u)) iid t2 (some u)) iid u =
      [{ w1 with
          vote_type := t2
          created_at := (vote_state db iid t1 (some u)).now }] := by
    rw [h2eq]
    rw [voter_rows_congr (vote_db (vote_state db iid t1 (some u)) iid t2 (some u))
      (write_vote (vote_state db iid t1 (some u)) iid t2 (some u))
      (vote_db_votes _ iid t2 (some u)) iid u]
    exact hfound.1
  have hnow1 : (vote_state db iid t1 (some u)).now = db.now + 1 := by
    rw [h1eq]
    exact vote_db_now db iid t1 (some u)
  refine ⟨?_, ?_, hnow1, ?_, ?_, ?_, ?_⟩
  · rw [hrows2]
    rfl
  · intro v hv
    rw [hrows2, List.mem_singleton] at hv
    rw [hv, hnow1]
    exact ⟨rfl, rfl⟩
  · rw [h2eq]
    have hv2 : (vote_db (vote_state db iid t1 (some u)) iid t2 (some u)).votes =
        (write_vote (vote_state db iid t1 (some u)) iid t2 (some u)).votes :=
      vote_db_votes _ iid t2 (some u)
    rw [hv2]
    exact hfound.2
  · intro hne
    rw [hrows2]
    simp [Ne.symm hne]
  · rw [hrows2]
    simp
  · intro i hi hid
    exact vote_tallies (vote_state db iid t1 (some u)) iid t2 (some u) inc1 hinc1 i hi hid

/-- `C5_revote_replaces` applied at a concrete store: voter `u1` votes
`confirm` then `dispute` on incident `a`; one row remains, typed
`dispute`, and the stored tallies are the recount of the state after the
first vote only. -/
theorem C5_revote_replaces_witness :
    (voter_rows (vote_state (vote_state cDB "a" "confirm" (some "u1")) "a" "dispute" (some "u1")) "a" "u1").length = 1 ∧
    (∀ v ∈ voter_rows (vote_state (vote_state cDB "a" "confirm" (some "u1")) "a" "dispute" (some "u1")) "a" "u1",
      v.vote_type = "dispute" ∧ v.created_at = cDB.now + 1) ∧
    (vote_state cDB "a" "confirm" (some "u1")).now = cDB.now + 1 ∧
    (vote_state (vote_state cDB "a" "confirm" (some "u1")) "a" "dispute" (some "u1")).votes.length =
      (vote_state cDB "a" "confirm" (some "u1")).votes.length ∧
    ("confirm" ≠ "dispute" →
      ((voter_rows (vote_state (vote_state cDB "a" "confirm" (some "u1")) "a" "dispute" (some "u1")) "a" "u1").filter
        (fun v => v.vote_type == "confirm")).length = 0) ∧
    ((voter_rows (vote_state (vote_state cDB "a" "confirm" (some "u1")) "a" "dispute" (some "u1")) "a" "u1").filter
      (fun v => v.vote_type == "dispute")).length = 1 ∧
    (∀ i ∈ (vote_state (vote_state cDB "a" "confirm" (some "u1")) "a" "dispute" (some "u1")).incidents,
      i.id = "a" →
        i.votes_confirm =
          count_votes (vote_state cDB "a" "confirm" (some "u1")) "a" "confirm" ∧
        i.votes_dispute =
          count_votes (vote_state cDB "a" "confirm" (some "u1")) "a" "dispute") :=
  C5_revote_replaces cDB "a" "confirm" "dispute" "u1" cIncidentA rfl
    (by decide)

theorem vote_state_exists (db : DB) (iid vt : String) (uid : Option String)
    (hinc : ∃ inc, get_incident db iid = some inc) :
    ∃ inc1, get_incident (vote_state db iid vt uid) iid = some inc1 := by
  obtain ⟨inc, h⟩ := hinc
  exact vote_state_get_incident db iid vt uid inc h

theorem vote_state_types (db : DB) (iid vt : String) (uid : Option String)
    (P : String → Prop) (hvt : P vt)
    (hall : ∀ v ∈ db.votes, v.incident_id = iid → P v.vote_type) :
    ∀ v ∈ (vote_state db iid vt uid).votes, v.incident_id = iid →
      P v.vote_type := by
  cases hex : get_incident db iid with
  | none =>
    rw [vote_state_not_found db iid vt uid hex]
    exact hall
  | some inc =>
    rw [vote_state_eq db iid vt uid inc hex, vote_db_votes]
    exact write_vote_types db iid vt uid P hvt hall

theorem apply_votes_append (iid : String) (l1 l2 : List VoteOp) :
    ∀ db : DB, apply_votes db iid (l1 ++ l2) =
      apply_votes (apply_votes db iid l1) iid l2 := by
  induction l1 with
  | nil =>
    intro db
    rfl
  | cons op t ih =>
    intro db
    exact ih (vote_state db iid op.vote_type op.user_id)

theorem apply_votes_exists (iid : String) (ops : List VoteOp) :
    ∀ db : DB, (∃ inc, get_incident db iid = some inc) →
      ∃ inc, get_incident (apply_votes db iid ops) iid = some inc := by
  induction ops with
  | nil =>
    intro db h
    exact h
  | cons op t ih =>
    intro db h
    exact ih (vote_state db iid op.vote_type op.user_id)
      (vote_state_exists db iid op.vote_type op.user_id h)

theorem apply_votes_types (iid : String) (ops : List VoteOp) :
    ∀ db : DB,
    (∀ v ∈ db.votes, v.incident_id = iid →
      (v.vote_type = "confirm" ∨ v.vote_type = "dispute")) →
    (∀ op ∈ ops, op.vote_type = "confirm" ∨ op.vote_type = "dispute") →
    ∀ v ∈ (apply_votes db iid ops).votes, v.incident_id = iid →
      (v.vote_type = "confirm" ∨ v.vote_type = "dispute") := by
  induction ops with
  | nil =>
    intro db ht _
    exact ht
  | cons op t ih =>
    intro db ht hops
    exact ih (vote_state db iid op.vote_type op.user_id)
      (vote_state_types db iid op.vote_type op.user_id
        (fun s => s = "confirm" ∨ s = "dispute")
        (hops op (List.mem_cons_self op t)) ht)
      (fun o ho => hops o (List.mem_cons_of_mem op ho))

/-! ### Claim C2 -/

/-- Claim C2 as stated is false both at creation and after votes.  At
creation the reporter's implicit confirmation sets `votesConfirm = 1`
without recording any vote row, so the tally sum is 1 while 0 records
exist.  And after one anonymous dispute vote on the fresh incident the
store holds one dispute row but tallies `(0, 0)`: the vote's own recount
ran against the pre-write table (`autoflush=False`), so the tallies never
match a recomputation over the stored rows. -/
theorem C2_counterexample :
    (create_incident emptyDB "incident_x" sampleCreate).2.votes_confirm = 1 ∧
    (create_incident emptyDB "incident_x" sampleCreate).2.votes_dispute = 0 ∧
    (rows_for (create_incident emptyDB "incident_x" sampleCreate).1 "incident_x").length = 0 ∧
    (create_incident emptyDB "incident_x" sampleCreate).2.votes_confirm +
        (create_incident emptyDB "incident_x" sampleCreate).2.votes_dispute ≠
      (rows_for (create_incident emptyDB "incident_x" sampleCreate).1 "incident_x").length ∧
    (rows_for (vote_state (create_incident emptyDB "incident_x" sampleCreate).1
      "incident_x" "dispute" none) "incident_x").length = 1 ∧
    (∀ v ∈ rows_for (vote_state (create_incident emptyDB "incident_x" sampleCreate).1
        "incident_x" "dispute" none) "incident_x", v.vote_type = "dispute") ∧
    (∀ i ∈ (vote_state (create_incident emptyDB "incident_x" sampleCreate).1
        "incident_x" "dispute" none).incidents,
      i.votes_confirm = 0 ∧ i.votes_dispute = 0) :=
  ⟨rfl, rfl, rfl, by decide, rfl, by decide, by decide⟩

/-- Claim C2 (amended): immediately after creation `votesConfirm = 1`,
`votesDispute = 0` and zero vote rows exist — the tally sum exceeds the
row count by one.  After a sequence of castVote operations
`prior ++ [last]` on the incident (each of type confirm or dispute, as
the request validation guarantees), the stored tallies are NOT the
recomputation over the final rows: the sessions are `autoflush=False`,
so the last vote's recount observed only the table as it stood before
its own write.  Each stored tally equals the per-type row count of the
state reached by `prior`, and the tally sum equals that state's row
count — the tallies lag the vote table by exactly the final write. -/
theorem C2_tally_invariant (db0 : DB) (newId : String)
    (d : TrafficIncidentCreate) (prior : List VoteOp) (last : VoteOp)
    (hnov : ∀ v ∈ db0.votes, v.incident_id ≠ newId)
    (hops : ∀ op ∈ prior ++ [last],
      op.vote_type = "confirm" ∨ op.vote_type = "dispute") :
    (create_incident db0 newId d).2.votes_confirm = 1 ∧
    (create_incident db0 newId d).2.votes_dispute = 0 ∧
    (rows_for (create_incident db0 newId d).1 newId).length = 0 ∧
    (∀ i ∈ (apply_votes (create_incident db0 newId d).1 newId
        (prior ++ [last])).incidents,
      i.id = newId →
        i.votes_confirm =
          count_votes (apply_votes (create_incident db0 newId d).1 newId prior)
            newId "confirm" ∧
        i.votes_dispute =
          count_votes (apply_votes (create_incident db0 newId d).1 newId prior)
            newId "dispute" ∧
        i.votes_confirm + i.votes_dispute =
          (rows_for (apply_votes (create_incident db0 newId d).1 newId prior)
            newId).length) := by
  refine ⟨rfl, rfl, ?_, ?_⟩
  · unfold rows_for
    rw [List.length_eq_zero, List.filter_eq_nil_iff]
    intro v hv
    simp [hnov v hv]
  · intro i hi hid
    obtain ⟨incp, hexp⟩ := apply_votes_exists newId prior
      (create_incident db0 newId d).1 (get_incident_create db0 newId d)
    have htypesp := apply_votes_types newId prior (create_incident db0 newId d).1
      (fun v hv hvi => absurd hvi (hnov v hv))
      (fun o ho => hops o (List.mem_append_left _ ho))
    rw [apply_votes_append newId prior [last] (create_incident db0 newId d).1]
      at hi
    have hshape : apply_votes
        (apply_votes (create_incident db0 newId d).1 newId prior) newId [last] =
        vote_state (apply_votes (create_incident db0 newId d).1 newId prior)
          newId last.vote_type last.user_id := rfl
    rw [hshape] at hi
    obtain ⟨hc, hd⟩ :=
      vote_tallies _ newId last.vote_type last.user_id incp hexp i hi hid
    refine ⟨hc, hd, ?_⟩
    rw [hc, hd]
    exact length_filter_split _ newId htypesp

/-- `C2_tally_invariant` applied at a concrete store: report into an
empty store and cast one anonymous dispute; the stored tallies equal the
recomputed counts of the pre-vote state (both 0) and their sum equals
that state's row count (0). -/
theorem C2_tally_invariant_witness :
    (create_incident emptyDB "n1" sampleCreate).2.votes_confirm = 1 ∧
    (create_incident emptyDB "n1" sampleCreate).2.votes_dispute = 0 ∧
    (rows_for (create_incident emptyDB "n1" sampleCreate).1 "n1").length = 0 ∧
    (∀ i ∈ (apply_votes (create_incident emptyDB "n1" sampleCreate).1 "n1"
        [{ vote_type := "dispute", user_id := none }]).incidents,
      i.id = "n1" →
        i.votes_confirm =
          count_votes (apply_votes (create_incident emptyDB "n1" sampleCreate).1
            "n1" []) "n1" "confirm" ∧
        i.votes_dispute =
          count_votes (apply_votes (create_incident emptyDB "n1" sampleCreate).1
            "n1" []) "n1" "dispute" ∧
        i.votes_confirm + i.votes_dispute =
          (rows_for (apply_votes (create_incident emptyDB "n1" sampleCreate).1
            "n1" []) "n1").length) :=
  C2_tally_invariant emptyDB "n1" sampleCreate []
    { vote_type := "dispute", user_id := none }
    (fun v hv => absurd hv (List.not_mem_nil v))
    (fun op hop => by
      simp only [List.nil_append, List.mem_singleton] at hop
      rw [hop]
      exact Or.inr rfl)

/-! ### Claim C6 -/

theorem vote_db_next (db : DB) (iid vt : String) (uid : Option String) :
    (vote_db db iid vt uid).next_vote_id =
      (write_vote db iid vt uid).next_vote_id := rfl

theorem write_vote_ids_wf (db : DB) (iid vt : String) (uid : Option String)
    (h : VoteIdsWF db) : VoteIdsWF (write_vote db iid vt uid) := by
  obtain ⟨hnd, hlt⟩ := h
  have happend : ∀ (nv : Vote), nv.id = db.next_vote_id →
      (((db.votes ++ [nv]).map Vote.id).Nodup ∧
        ∀ v ∈ db.votes ++ [nv], v.id < db.next_vote_id + 1) := by
    intro nv hnv
    constructor
    · rw [List.map_append, List.map_singleton, hnv]
      rw [List.nodup_append]
      refine ⟨hnd, List.nodup_singleton _, ?_⟩
      intro x hx
      rw [List.mem_singleton]
      rcases List.mem_map.mp hx with ⟨v, hv, hvx⟩
      intro hxeq
      rw [hxeq] at hvx
      exact absurd hvx (Nat.ne_of_lt (hlt v hv))
    · intro v hv
      rcases List.mem_append.mp hv with hold | hnew
      · exact Nat.lt_succ_of_lt (hlt v hold)
      · rw [List.mem_singleton] at hnew
        rw [hnew, hnv]
        exact Nat.lt_succ_self _
  cases uid with
  | none => exact happend _ rfl
  | some u =>
    cases hf : find_existing_vote db iid u with
    | some e =>
      have hw : write_vote db iid vt (some u) =
          { db with votes := db.votes.map (fun v =>
              if v.id == e.id then
                { v with vote_type := vt, created_at := db.now }
              else v) } := by
        simp only [write_vote, hf]
      rw [hw]
      have hids : (db.votes.map (fun v =>
          if v.id == e.id then
            { v with vote_type := vt, created_at := db.now }
          else v)).map Vote.id = db.votes.map Vote.id := by
        rw [List.map_map]
        refine List.map_congr_left ?_
        intro v _
        by_cases hv : v.id = e.id <;> simp [hv]
      constructor
      · show ((db.votes.map _).map Vote.id).Nodup
        rw [hids]
        exact hnd
      · intro v hv
        rcases List.mem_map.mp hv with ⟨w, hw2, hwv⟩
        have : v.id = w.id := by
          rw [← hwv]
          by_cases hc : w.id = e.id <;> simp [hc]
        rw [this]
        exact hlt w hw2
    | none =>
      have hw : write_vote db iid vt (some u) =
          { db with
              votes := db.votes ++
                [{ id := db.next_vote_id, incident_id := iid,
                   user_id := some u, vote_type := vt, created_at := db.now }]
              next_vote_id := db.next_vote_id + 1 } := by
        simp only [write_vote, hf]
      rw [hw]
      exact happend _ rfl

theorem vote_state_ids_wf (db : DB) (iid vt : String) (uid : Option String)
    (h : VoteIdsWF db) : VoteIdsWF (vote_state db iid vt uid) := by
  cases hex : get_incident db iid with
  | none =>
    rw [vote_state_not_found db iid vt uid hex]
    exact h
  | some inc =>
    rw [vote_state_eq db iid vt uid inc hex]
    have h1 := write_vote_ids_wf db iid vt uid h
    unfold VoteIdsWF at h1 ⊢
    rw [vote_db_votes, vote_db_next]
    exact h1

theorem vote_state_anon_step (db : DB) (iid t : String) (inc : Incident)
    (hex : get_incident db iid = some inc) :
    (vote_state db iid t none).votes.length = db.votes.length + 1 ∧
    count_votes (vote_state db iid t none) iid t = count_votes db iid t + 1 := by
  rw [vote_state_eq db iid t none inc hex]
  constructor
  · rw [show (vote_db db iid t none).votes = (write_vote db iid t none).votes
      from rfl]
    exact (count_votes_write_anon db iid t).2
  · rw [count_votes_congr (vote_db db iid t none) (write_vote db iid t none)
      (vote_db_votes db iid t none) iid t]
    exact (count_votes_write_anon db iid t).1

theorem apply_anon_exists (iid t : String) (n : ℕ) :
    ∀ db : DB, (∃ inc, get_incident db iid = some inc) →
      ∃ inc, get_incident (apply_anon_votes db iid t n) iid = some inc := by
  induction n with
  | zero =>
    intro db h
    exact h
  | succ m ih =>
    intro db h
    obtain ⟨inc, hex⟩ := h
    exact ih (vote_state db iid t none)
      (vote_state_get_incident db iid t none inc hex)

theorem apply_anon_comm (iid t : String) (n : ℕ) :
    ∀ db : DB, apply_anon_votes (vote_state db iid t none) iid t n =
      vote_state (apply_anon_votes db iid t n) iid t none := by
  induction n with
  | zero =>
    intro db
    rfl
  | succ m ih =>
    intro db
    exact ih (vote_state db iid t none)

/-- Claim C6 as stated is false in its tally assertion: one anonymous
confirm vote on incident `a` of a store with no prior votes leaves one
confirm row — the recomputation over the stored rows counts it — but
the stored tally is `votes_confirm = 0`: the vote's own recount ran
against the pre-write table (`autoflush=False`), so the vote just cast
is not counted in the stored tally. -/
theorem C6_counterexample :
    (apply_anon_votes cDB "a" "confirm" 1).votes.length = 1 ∧
    count_votes (apply_anon_votes cDB "a" "confirm" 1) "a" "confirm" = 1 ∧
    (∀ i ∈ (apply_anon_votes cDB "a" "confirm" 1).incidents,
      i.id = "a" → i.votes_confirm = 0 ∧ i.votes_dispute = 0) := by
  refine ⟨rfl, rfl, ?_⟩
  decide

/-- Claim C6 (amended): `N` anonymous votes of one type on an existing
incident insert `N` distinct new vote rows (never deduplicated;
primary-key well-formedness is preserved, so all rows stay distinct),
and a recomputation over the final vote table counts all `N`.  The
STORED tally, however, lags one write behind (`autoflush=False`): after
the `N`-th vote it equals the per-type count of the state after `N - 1`
votes, so only `N - 1` of the `N` votes are reflected in it. -/
theorem C6_anonymous_votes (iid t : String) (N : ℕ) :
    ∀ db : DB, (∃ inc, get_incident db iid = some inc) →
    (apply_anon_votes db iid t N).votes.length = db.votes.length + N ∧
    count_votes (apply_anon_votes db iid t N) iid t = count_votes db iid t + N ∧
    (VoteIdsWF db → VoteIdsWF (apply_anon_votes db iid t N)) ∧
    (1 ≤ N → ∀ i ∈ (apply_anon_votes db iid t N).incidents, i.id = iid →
      i.votes_confirm =
        count_votes (apply_anon_votes db iid t (N - 1)) iid "confirm" ∧
      i.votes_dispute =
        count_votes (apply_anon_votes db iid t (N - 1)) iid "dispute") := by
  induction N with
  | zero =>
    intro db _
    exact ⟨rfl, rfl, fun h => h, fun h => absurd h (by decide)⟩
  | succ n ih =>
    intro db hinc
    obtain ⟨inc, hex⟩ := hinc
    have hstep := vote_state_anon_step db iid t inc hex
    have hinc1 := vote_state_get_incident db iid t none inc hex
    have hrec := ih (vote_state db iid t none) hinc1
    refine ⟨?_, ?_, ?_, ?_⟩
    · show (apply_anon_votes (vote_state db iid t none) iid t n).votes.length
        = db.votes.length + (n + 1)
      rw [hrec.1, hstep.1]
      omega
    · show count_votes (apply_anon_votes (vote_state db iid t none) iid t n) iid t
        = count_votes db iid t + (n + 1)
      rw [hrec.2.1, hstep.2]
      omega
    · intro hwf
      exact hrec.2.2.1 (vote_state_ids_wf db iid t none hwf)
    · intro _
      intro i hi hid
      obtain ⟨incn, hexn⟩ :=
        apply_anon_exists iid t n db ⟨inc, hex⟩
      have hcomm : apply_anon_votes db iid t (n + 1) =
          vote_state (apply_anon_votes db iid t n) iid t none :=
        apply_anon_comm iid t n db
      rw [hcomm] at hi
      exact vote_tallies (apply_anon_votes db iid t n) iid t none incn hexn
        i hi hid

/-- `C6_anonymous_votes` applied at a concrete store: three anonymous
confirm votes on incident `a` leave three rows, a recomputed confirm
count of three, and stored tallies equal to the counts after the first
two votes. -/
theorem C6_anonymous_votes_witness :
    (apply_anon_votes cDB "a" "confirm" 3).votes.length = cDB.votes.length + 3 ∧
    count_votes (apply_anon_votes cDB "a" "confirm" 3) "a" "confirm" =
      count_votes cDB "a" "confirm" + 3 ∧
    (VoteIdsWF cDB → VoteIdsWF (apply_anon_votes cDB "a" "confirm" 3)) ∧
    (1 ≤ 3 → ∀ i ∈ (apply_anon_votes cDB "a" "confirm" 3).incidents, i.id = "a" →
      i.votes_confirm =
        count_votes (apply_anon_votes cDB "a" "confirm" 2) "a" "confirm" ∧
      i.votes_dispute =
        count_votes (apply_anon_votes cDB "a" "confirm" 2) "a" "dispute") :=
  C6_anonymous_votes "a" "confirm" 3 cDB ⟨cIncidentA, rfl⟩

/-! ### Claims C9 and C10 -/

/-- Clock well-formedness: every stored `updated_at` lies strictly before
the current instant (true of any state reached by the operations, since
each mutation stamps the pre-tick clock and then advances it). -/
def ClockAhead (db : DB) : Prop :=
  ∀ i ∈ db.incidents, i.updated_at < db.now

theorem get_incident_mapped (db : DB) (g : Incident → Incident) (n : ℕ)
    (iid : String) (hg : ∀ i, (g i).id = i.id) :
    get_incident { db with incidents := db.incidents.map g, now := n } iid =
      (get_incident db iid).map g := by
  unfold get_incident
  exact filter_id_head_map db.incidents g iid hg

theorem update_not_found (db : DB) (iid : String) (ns : IncidentStatus)
    (ub : Option String) (hex : get_incident db iid = none) :
    update_incident_status db iid ns ub = none := by
  unfold update_incident_status
  rw [hex]

theorem update_state_eq (db : DB) (iid : String) (ns : IncidentStatus)
    (ub : Option String) (inc : Incident)
    (hex : get_incident db iid = some inc) :
    update_state db iid ns ub =
      { db with
          incidents := db.incidents.map (fun i =>
            if i.id == iid then
              { i with status := ns, updated_at := db.now }
            else i)
          now := db.now + 1 } := by
  unfold update_state update_incident_status
  rw [hex]
  simp only []
  rw [get_incident_mapped db _ (db.now + 1) iid
    (fun i => by by_cases h : i.id = iid <;> simp [h]), hex]
  rfl

/-- Claim C9: `update_incident_status` on a missing id returns `None`
without raising; on an existing id it accepts any of the four statuses
from any current status (no transition-graph restriction — `ns` is
universally quantified) and advances `updatedAt` strictly past its
previous value. -/
theorem C9_update_status (db : DB) (iid : String) (ns : IncidentStatus)
    (ub : Option String) :
    (get_incident db iid = none → update_incident_status db iid ns ub = none) ∧
    (∀ inc, get_incident db iid = some inc → ClockAhead db →
      ∃ p, update_incident_status db iid ns ub = some p ∧
        p.2.id = iid ∧ p.2.status = ns ∧ p.2.updated_at = db.now ∧
        inc.updated_at < p.2.updated_at) := by
  constructor
  · exact update_not_found db iid ns ub
  · intro inc hex hclock
    have hspec := get_incident_spec db iid inc hex
    unfold update_incident_status
    rw [hex]
    simp only []
    rw [get_incident_mapped db _ (db.now + 1) iid
      (fun i => by by_cases h : i.id = iid <;> simp [h]), hex]
    have hginc : (if inc.id == iid then
        { inc with status := ns, updated_at := db.now } else inc) =
        { inc with status := ns, updated_at := db.now } :=
      if_pos (by simp [hspec.2])
    simp only [Option.map_some']
    refine ⟨_, rfl, ?_, ?_, ?_, ?_⟩
    · rw [hginc]
      exact hspec.2
    · rw [hginc]
    · rw [hginc]
    · rw [hginc]
      exact hclock inc hspec.1

/-- `C9_update_status` applied at a concrete store: resolving incident
`a` succeeds, sets its status, and strictly advances `updatedAt`. -/
theorem C9_update_status_witness :
    ∃ p, update_incident_status cDB "a" IncidentStatus.resolved none = some p ∧
      p.2.id = "a" ∧ p.2.status = IncidentStatus.resolved ∧
      p.2.updated_at = cDB.now ∧ cIncidentA.updated_at < p.2.updated_at :=
  (C9_update_status cDB "a" IncidentStatus.resolved none).2 cIncidentA rfl
    (by unfold ClockAhead; decide)

/-- Claim C10: a status update touches only `status` and `updated_at` —
the vote table, the id counter, the number of incident rows, and every
other field of every incident row are unchanged; a row whose id differs
from the target is untouched entirely. -/
theorem C10_update_frame (db : DB) (iid : String) (ns : IncidentStatus)
    (ub : Option String) :
    (update_state db iid ns ub).votes = db.votes ∧
    (update_state db iid ns ub).next_vote_id = db.next_vote_id ∧
    (update_state db iid ns ub).incidents.length = db.incidents.length ∧
    ∀ k (h1 : k < db.incidents.length)
        (h2 : k < (update_state db iid ns ub).incidents.length),
      ((update_state db iid ns ub).incidents.get ⟨k, h2⟩).id =
        (db.incidents.get ⟨k, h1⟩).id ∧
      ((update_state db iid ns ub).incidents.get ⟨k, h2⟩).type =
        (db.incidents.get ⟨k, h1⟩).type ∧
      ((update_state db iid ns ub).incidents.get ⟨k, h2⟩).severity =
        (db.incidents.get ⟨k, h1⟩).severity ∧
      ((update_state db iid ns ub).incidents.get ⟨k, h2⟩).latitude =
        (db.incidents.get ⟨k, h1⟩).latitude ∧
      ((update_state db iid ns ub).incidents.get ⟨k, h2⟩).longitude =
        (db.incidents.get ⟨k, h1⟩).longitude ∧
      ((update_state db iid ns ub).incidents.get ⟨k, h2⟩).description =
        (db.incidents.get ⟨k, h1⟩).description ∧
      ((update_state db iid ns ub).incidents.get ⟨k, h2⟩).address =
        (db.incidents.get ⟨k, h1⟩).address ∧
      ((update_state db iid ns ub).incidents.get ⟨k, h2⟩).affected_lanes =
        (db.incidents.get ⟨k, h1⟩).affected_lanes ∧
      ((update_state db iid ns ub).incidents.get ⟨k, h2⟩).estimated_duration =
        (db.incidents.get ⟨k, h1⟩).estimated_duration ∧
      ((update_state db iid ns ub).incidents.get ⟨k, h2⟩).reported_by =
        (db.incidents.get ⟨k, h1⟩).reported_by ∧
      ((update_state db iid ns ub).incidents.get ⟨k, h2⟩).created_at =
        (db.incidents.get ⟨k, h1⟩).created_at ∧
      ((update_state db iid ns ub).incidents.get ⟨k, h2⟩).votes_confirm =
        (db.incidents.get ⟨k, h1⟩).votes_confirm ∧
      ((update_state db iid ns ub).incidents.get ⟨k, h2⟩).votes_dispute =
        (db.incidents.get ⟨k, h1⟩).votes_dispute ∧
      ((db.incidents.get ⟨k, h1⟩).id ≠ iid →
        (update_state db iid ns ub).incidents.get ⟨k, h2⟩ =
          db.incidents.get ⟨k, h1⟩) := by
  cases hex : get_incident db iid with
  | none =>
    have hupd : update_state db iid ns ub = db := by
      unfold update_state
      rw [update_not_found db iid ns ub hex]
    rw [hupd]
    refine ⟨rfl, rfl, rfl, ?_⟩
    intro k h1 h2
    exact ⟨rfl, rfl, rfl, rfl, rfl, rfl, rfl, rfl, rfl, rfl, rfl, rfl, rfl,
      fun _ => rfl⟩
  | some inc =>
    rw [update_state_eq db iid ns ub inc hex]
    refine ⟨rfl, rfl, List.length_map _ _, ?_⟩
    intro k h1 h2
    have hk : ({ db with
        incidents := db.incidents.map (fun i : Incident =>
          if i.id == iid then
            { i with status := ns, updated_at := db.now }
          else i)
        now := db.now + 1 }).incidents.get ⟨k, h2⟩ =
        (fun i : Incident => if i.id == iid then
          { i with status := ns, updated_at := db.now } else i)
          (db.incidents.get ⟨k, h1⟩) := by
      apply List.get_map
    rw [hk]
    simp only []
    by_cases hc : (db.incidents.get ⟨k, h1⟩).id = iid
    · rw [if_pos (beq_iff_eq.mpr hc)]
      exact ⟨rfl, rfl, rfl, rfl, rfl, rfl, rfl, rfl, rfl, rfl, rfl, rfl, rfl,
        fun hne => absurd hc hne⟩
    · rw [if_neg (by simp only [beq_iff_eq]; exact hc)]
      exact ⟨rfl, rfl, rfl, rfl, rfl, rfl, rfl, rfl, rfl, rfl, rfl, rfl, rfl,
        fun _ => rfl⟩

/-- `C10_update_frame` applied at a concrete store: resolving incident
`a` leaves the vote table, the counter, and the other row `b` unchanged. -/
theorem C10_update_frame_witness :
    (update_state cDB "a" IncidentStatus.resolved none).votes = cDB.votes ∧
    (update_state cDB "a" IncidentStatus.resolved none).incidents.length =
      cDB.incidents.length :=
  ⟨(C10_update_frame cDB "a" IncidentStatus.resolved none).1,
   (C10_update_frame cDB "a" IncidentStatus.resolved none).2.2.1⟩

/-! ### Claim C8: the id-keyed dict of `get_incidents_along_route` -/

theorem dict_insert_mem (d : List (String × Incident)) (k : String)
    (v : Incident) (p : String × Incident) (hp : p ∈ dict_insert d k v) :
    p ∈ d ∨ p = (k, v) := by
  unfold dict_insert at hp
  by_cases hany : d.any (fun q => q.fst == k) = true
  · rw [if_pos hany] at hp
    rcases List.mem_map.mp hp with ⟨q, hq, hqp⟩
    by_cases hqk : q.fst = k
    · rw [if_pos (beq_iff_eq.mpr hqk)] at hqp
      right
      exact hqp.symm
    · rw [if_neg (by simp only [beq_iff_eq]; exact hqk)] at hqp
      left
      rw [← hqp]
      exact hq
  · rw [if_neg hany] at hp
    rcases List.mem_append.mp hp with h | h
    · exact Or.inl h
    · right
      rw [List.mem_singleton] at h
      exact h

theorem dict_insert_keys (d : List (String × Incident)) (k : String)
    (v : Incident) (k1 : String) :
    k1 ∈ (dict_insert d k v).map Prod.fst ↔
      k1 ∈ d.map Prod.fst ∨ k1 = k := by
  unfold dict_insert
  by_cases hany : d.any (fun q => q.fst == k) = true
  · rw [if_pos hany]
    have hkeys : (d.map (fun q => if q.fst == k then (k, v) else q)).map Prod.fst
        = d.map Prod.fst := by
      rw [List.map_map]
      refine List.map_congr_left ?_
      intro q _
      by_cases hqk2 : q.fst = k <;> simp [Function.comp, hqk2]
    rw [hkeys]
    constructor
    · exact Or.inl
    · intro h
      rcases h with h | h
      · exact h
      · rcases List.any_eq_true.mp hany with ⟨q, hq, hqk⟩
        rw [h]
        rcases List.mem_map.mp (List.mem_map_of_mem Prod.fst hq) with _
        have : q.fst = k := by simpa using hqk
        rw [← this]
        exact List.mem_map_of_mem Prod.fst hq
  · rw [if_neg hany]
    rw [List.map_append, List.map_singleton]
    rw [List.mem_append, List.mem_singleton]

theorem dict_insert_keys_nodup (d : List (String × Incident)) (k : String)
    (v : Incident) (hd : (d.map Prod.fst).Nodup) :
    ((dict_insert d k v).map Prod.fst).Nodup := by
  unfold dict_insert
  by_cases hany : d.any (fun q => q.fst == k) = true
  · rw [if_pos hany]
    have hkeys : (d.map (fun q => if q.fst == k then (k, v) else q)).map Prod.fst
        = d.map Prod.fst := by
      rw [List.map_map]
      refine List.map_congr_left ?_
      intro q _
      by_cases hq : q.fst = k <;> simp [Function.comp, hq]
    rw [hkeys]
    exact hd
  · rw [if_neg hany]
    rw [List.map_append, List.map_singleton]
    rw [List.nodup_append]
    refine ⟨hd, List.nodup_singleton _, ?_⟩
    intro x hx
    rw [List.mem_singleton]
    intro hxk
    rw [List.any_eq_true] at hany
    rcases List.mem_map.mp hx with ⟨q, hq, hqx⟩
    exact hany ⟨q, hq, by simp [hqx, hxk]⟩

/-- The accumulating fold of `get_incidents_along_route`, with the dict
as explicit accumulator. -/
def route_dict (l : List Incident) (d : List (String × Incident)) :
    List (String × Incident) :=
  l.foldl (fun d2 i => dict_insert d2 i.id i) d

theorem route_dict_shape (l : List Incident) :
    ∀ (d : List (String × Incident)) (p : String × Incident),
      p ∈ route_dict l d → p ∈ d ∨ ∃ i, i ∈ l ∧ p = (i.id, i) := by
  induction l with
  | nil =>
    intro d p hp
    exact Or.inl hp
  | cons a t ih =>
    intro d p hp
    rcases ih (dict_insert d a.id a) p hp with h | ⟨i, hi, hpi⟩
    · rcases dict_insert_mem d a.id a p h with h2 | h2
      · exact Or.inl h2
      · exact Or.inr ⟨a, List.mem_cons_self a t, h2⟩
    · exact Or.inr ⟨i, List.mem_cons_of_mem a hi, hpi⟩

theorem route_dict_keys (l : List Incident) :
    ∀ (d : List (String × Incident)) (k : String),
      k ∈ (route_dict l d).map Prod.fst ↔
        k ∈ d.map Prod.fst ∨ ∃ i, i ∈ l ∧ i.id = k := by
  induction l with
  | nil =>
    intro d k
    simp [route_dict]
  | cons a t ih =>
    intro d k
    have h1 := ih (dict_insert d a.id a) k
    have h2 : route_dict (a :: t) d = route_dict t (dict_insert d a.id a) := rfl
    rw [h2, h1, dict_insert_keys]
    constructor
    · intro h
      rcases h with (h | h) | ⟨i, hi, hik⟩
      · exact Or.inl h
      · exact Or.inr ⟨a, List.mem_cons_self a t, h.symm⟩
      · exact Or.inr ⟨i, List.mem_cons_of_mem a hi, hik⟩
    · intro h
      rcases h with h | ⟨i, hi, hik⟩
      · exact Or.inl (Or.inl h)
      · rcases List.mem_cons.mp hi with rfl | hit
        · exact Or.inl (Or.inr hik.symm)
        · exact Or.inr ⟨i, hit, hik⟩

theorem route_dict_keys_nodup (l : List Incident) :
    ∀ d : List (String × Incident), (d.map Prod.fst).Nodup →
      ((route_dict l d).map Prod.fst).Nodup := by
  induction l with
  | nil =>
    intro d hd
    exact hd
  | cons a t ih =>
    intro d hd
    exact ih (dict_insert d a.id a) (dict_insert_keys_nodup d a.id a hd)

theorem dedup_by_id_eq (l : List Incident) :
    dedup_by_id l = (route_dict l []).map Prod.snd := rfl

theorem mem_dedup_by_id (l : List Incident)
    (hsame : ∀ a ∈ l, ∀ b ∈ l, a.id = b.id → a = b) (i : Incident) :
    i ∈ dedup_by_id l ↔ i ∈ l := by
  rw [dedup_by_id_eq]
  constructor
  · intro h
    rcases List.mem_map.mp h with ⟨p, hp, hpi⟩
    rcases route_dict_shape l [] p hp with h2 | ⟨j, hj, hpj⟩
    · exact absurd h2 (List.not_mem_nil p)
    · rw [hpj] at hpi
      rw [← hpi]
      exact hj
  · intro h
    have hkey : i.id ∈ (route_dict l []).map Prod.fst := by
      rw [route_dict_keys l [] i.id]
      exact Or.inr ⟨i, h, rfl⟩
    rcases List.mem_map.mp hkey with ⟨p, hp, hpk⟩
    rcases route_dict_shape l [] p hp with h2 | ⟨j, hj, hpj⟩
    · exact absurd h2 (List.not_mem_nil p)
    · have hji : j = i := by
        refine hsame j hj i h ?_
        rw [hpj] at hpk
        exact hpk
      refine List.mem_map.mpr ⟨p, hp, ?_⟩
      rw [hpj, hji]

theorem dedup_by_id_ids_nodup (l : List Incident) :
    ((dedup_by_id l).map Incident.id).Nodup := by
  rw [dedup_by_id_eq, List.map_map]
  have hcong : (route_dict l []).map (Incident.id ∘ Prod.snd) =
      (route_dict l []).map Prod.fst := by
    refine List.map_congr_left ?_
    intro p hp
    rcases route_dict_shape l [] p hp with h2 | ⟨j, _, hpj⟩
    · exact absurd h2 (List.not_mem_nil p)
    · rw [hpj]
      rfl
  rw [hcong]
  exact route_dict_keys_nodup l [] List.nodup_nil

theorem count_dedup_by_id (l : List Incident)
    (hsame : ∀ a ∈ l, ∀ b ∈ l, a.id = b.id → a = b) (i : Incident)
    (hi : i ∈ l) : (dedup_by_id l).count i = 1 :=
  List.count_eq_one_of_mem
    (List.Nodup.of_map Incident.id (dedup_by_id_ids_nodup l))
    ((mem_dedup_by_id l hsame i).mpr hi)

theorem route_concat_mem (db : DB) (buffer : ℚ) (coords : List Coordinates) :
    ∀ (acc : List Incident) (i : Incident),
      (i ∈ coords.foldl (fun acc2 coord =>
        acc2 ++ get_incidents_by_location db coord.lat coord.lng buffer none 100)
        acc ↔
      i ∈ acc ∨ ∃ c ∈ coords,
        i ∈ get_incidents_by_location db c.lat c.lng buffer none 100) := by
  induction coords with
  | nil =>
    intro acc i
    simp
  | cons c t ih =>
    intro acc i
    have h1 := ih
      (acc ++ get_incidents_by_location db c.lat c.lng buffer none 100) i
    rw [List.foldl_cons, h1, List.mem_append]
    constructor
    · intro h
      rcases h with (h | h) | ⟨c2, hc2, h⟩
      · exact Or.inl h
      · exact Or.inr ⟨c, List.mem_cons_self c t, h⟩
      · exact Or.inr ⟨c2, List.mem_cons_of_mem c hc2, h⟩
    · intro h
      rcases h with h | ⟨c2, hc2, h⟩
      · exact Or.inl (Or.inl h)
      · rcases List.mem_cons.mp hc2 with rfl | ht
        · exact Or.inl (Or.inr h)
        · exact Or.inr ⟨c2, ht, h⟩

/-- Claim C8: on a store with distinct incident ids, the route query
returns exactly the union of the per-waypoint proximity results (each
with the active default and limit 100), and a qualifying incident —
even one within the buffer of several waypoints — appears exactly once. -/
theorem C8_route_union (db : DB) (coords : List Coordinates) (buffer : ℚ)
    (i : Incident) (hids : (db.incidents.map Incident.id).Nodup) :
    (i ∈ get_incidents_along_route db coords buffer ↔
      ∃ c ∈ coords,
        i ∈ get_incidents_by_location db c.lat c.lng buffer none 100) ∧
    ((∃ c ∈ coords,
        i ∈ get_incidents_by_location db c.lat c.lng buffer none 100) →
      (get_incidents_along_route db coords buffer).count i = 1) := by
  have hshape : get_incidents_along_route db coords buffer =
      dedup_by_id (coords.foldl (fun acc coord =>
        acc ++ get_incidents_by_location db coord.lat coord.lng buffer none 100)
        []) := rfl
  have hsub : ∀ a, a ∈ coords.foldl (fun acc coord =>
      acc ++ get_incidents_by_location db coord.lat coord.lng buffer none 100)
      [] → a ∈ db.incidents := by
    intro a ha
    rcases (route_concat_mem db buffer coords [] a).mp ha with h | ⟨c, _, h⟩
    · exact absurd h (List.not_mem_nil a)
    · exact get_incidents_by_location_subset db c.lat c.lng buffer none 100 a h
  have hsame : ∀ a ∈ coords.foldl (fun acc coord =>
      acc ++ get_incidents_by_location db coord.lat coord.lng buffer none 100)
      [], ∀ b ∈ coords.foldl (fun acc coord =>
      acc ++ get_incidents_by_location db coord.lat coord.lng buffer none 100)
      [], a.id = b.id → a = b := by
    intro a ha b hb hab
    exact List.inj_on_of_nodup_map hids (hsub a ha) (hsub b hb) hab
  constructor
  · rw [hshape, mem_dedup_by_id _ hsame i,
      route_concat_mem db buffer coords [] i]
    simp
  · intro hex
    rw [hshape]
    refine count_dedup_by_id _ hsame i ?_
    rw [route_concat_mem db buffer coords [] i]
    exact Or.inr hex

/-- Evaluation of the candidate stage on the concrete store with the
route-query default `limit = 100`. -/
theorem cDB_candidates_limit_100 :
    candidate_incidents cDB 0 0 5 none 100 = [cIncidentA, cIncidentB] := by
  norm_num [candidate_incidents, cDB, cIncidentA, cIncidentB, inBoundingBox,
    applyStatusStage, statusTruthy, sortByCreatedDesc, insertByCreatedDesc,
    List.filter_cons, List.filter_nil]

/-- `C8_route_union` applied at a concrete store: with one waypoint at
the origin, incident `a` qualifies and appears exactly once. -/
theorem C8_route_union_witness :
    (get_incidents_along_route cDB [{ lat := 0, lng := 0 }] 5).count cIncidentA = 1 := by
  refine (C8_route_union cDB [{ lat := 0, lng := 0 }] 5 cIncidentA (by decide)).2
    ⟨{ lat := 0, lng := 0 }, List.mem_singleton_self _, ?_⟩
  refine (mem_get_incidents_by_location cDB 0 0 5 none 100 cIncidentA).mpr
    ⟨by rw [cDB_candidates_limit_100]; simp, ?_⟩
  rw [distTo_self 0 0 cIncidentA rfl rfl]
  norm_num

end TrafficDemo

